import Mathlib

/-!
Shallow embedding of soulkit's Tauri command layer
(src/src-tauri/src/lib.rs).

Paths are modelled as lists of components; the empty list denotes the
filesystem root (so the empty-string path and the root path are
identified).  A filesystem is a finite rose tree of named entries.  File
contents are modelled abstractly: a byte sequence either decodes as
UTF-8 to a unique string (FileData.text s) or it does not
(FileData.binary); Rust strings are always valid UTF-8, so writing text
content always stores a FileData.text.

The std::fs primitives used by lib.rs — read_to_string, write,
create_dir_all, remove_file, read_dir and Path::exists — are modelled
as functions from the filesystem tree to a pair of the new tree and an
Except result (the primitives are modelled atomic: an erroring
primitive leaves the tree unchanged, and the reading primitives return
the tree unchanged, which is the OS contract for them).  The seven
commands of lib.rs are then translated on top of these primitives,
following the Rust control flow line by line.  Symlinks, permissions
and transient enumeration errors are outside the model, so directory
enumeration always yields every child exactly once and a file is
unreadable only by not being a file of valid UTF-8.
-/

/-- A filesystem path, as its list of components; `[]` is the root. -/
abbrev FsPath := List String

/-- Abstract contents of a regular file: a byte sequence that decodes
as UTF-8 to `s`, or a byte sequence that is not valid UTF-8. -/
inductive FileData where
  | text (s : String)
  | binary

/-- A filesystem entry: a regular file with contents, or a directory
with a list of named children. -/
inductive Entry where
  | file (d : FileData)
  | dir (children : List (String × Entry))

/-- Look a name up in a child list (first match). -/
def getChild : List (String × Entry) → String → Option Entry
  | [], _ => none
  | (m, e) :: cs, n => if m = n then some e else getChild cs n

/-- Replace the entry under a name in a child list, or append it. -/
def setChild : List (String × Entry) → String → Entry → List (String × Entry)
  | [], n, e => [(n, e)]
  | (m, e₀) :: cs, n, e => if m = n then (n, e) :: cs else (m, e₀) :: setChild cs n e

/-- Remove every entry under a name from a child list. -/
def delChild : List (String × Entry) → String → List (String × Entry)
  | [], _ => []
  | (m, e₀) :: cs, n => if m = n then delChild cs n else (m, e₀) :: delChild cs n

/-- Resolve a path against an entry. -/
def Entry.lookup : Entry → FsPath → Option Entry
  | e, [] => some e
  | Entry.file _, _ :: _ => none
  | Entry.dir cs, n :: rest =>
    match getChild cs n with
    | none => none
    | some e => e.lookup rest

/-- `PathBuf::parent`: `None` on the root, otherwise the path without
its final component. -/
def parentPath : FsPath → Option FsPath
  | [] => none
  | p@(_ :: _) => some p.dropLast

/-- Core of `std::fs::write`: replaces the contents of the file at the
path (creating the file if its final component is missing), errors if
an intermediate component is missing or is not a directory, or if the
target is a directory. -/
def writeE : Entry → FsPath → FileData → Except String Entry
  | _, [], _ => Except.error "Is a directory (os error 21)"
  | Entry.file _, _ :: _, _ => Except.error "Not a directory (os error 20)"
  | Entry.dir cs, [n], d =>
    match getChild cs n with
    | some (Entry.dir _) => Except.error "Is a directory (os error 21)"
    | some (Entry.file _) => Except.ok (Entry.dir (setChild cs n (Entry.file d)))
    | none => Except.ok (Entry.dir (setChild cs n (Entry.file d)))
  | Entry.dir cs, n :: m :: rest, d =>
    match getChild cs n with
    | none => Except.error "No such file or directory (os error 2)"
    | some e =>
      match writeE e (m :: rest) d with
      | Except.ok e₂ => Except.ok (Entry.dir (setChild cs n e₂))
      | Except.error msg => Except.error msg

/-- Core of `std::fs::create_dir_all`: creates the directory and every
missing ancestor, succeeds if the directory already exists (also on
the empty path), errors if the target or an ancestor exists as a
regular file. -/
def createDirAllE : Entry → FsPath → Except String Entry
  | Entry.dir cs, [] => Except.ok (Entry.dir cs)
  | Entry.file _, [] => Except.error "File exists (os error 17)"
  | Entry.file _, _ :: _ => Except.error "Not a directory (os error 20)"
  | Entry.dir cs, n :: rest =>
    match getChild cs n with
    | none =>
      match createDirAllE (Entry.dir []) rest with
      | Except.ok e₂ => Except.ok (Entry.dir (setChild cs n e₂))
      | Except.error msg => Except.error msg
    | some e =>
      match createDirAllE e rest with
      | Except.ok e₂ => Except.ok (Entry.dir (setChild cs n e₂))
      | Except.error msg => Except.error msg

/-- Core of `std::fs::remove_file`: removes the regular file at the
path, errors if the path is missing or names a directory. -/
def removeFileE : Entry → FsPath → Except String Entry
  | _, [] => Except.error "Is a directory (os error 21)"
  | Entry.file _, _ :: _ => Except.error "Not a directory (os error 20)"
  | Entry.dir cs, [n] =>
    match getChild cs n with
    | none => Except.error "No such file or directory (os error 2)"
    | some (Entry.dir _) => Except.error "Is a directory (os error 21)"
    | some (Entry.file _) => Except.ok (Entry.dir (delChild cs n))
  | Entry.dir cs, n :: m :: rest =>
    match getChild cs n with
    | none => Except.error "No such file or directory (os error 2)"
    | some e =>
      match removeFileE e (m :: rest) with
      | Except.ok e₂ => Except.ok (Entry.dir (setChild cs n e₂))
      | Except.error msg => Except.error msg

/-- `std::fs::read_to_string`: the decoded text of the regular file at
the path; errors on a missing path, on a directory, and on contents
that are not valid UTF-8.  Reading does not change the filesystem. -/
def fsReadToString (fs : Entry) (p : FsPath) : Entry × Except String String :=
  (fs,
    match fs.lookup p with
    | some (Entry.file (FileData.text s)) => Except.ok s
    | some (Entry.file FileData.binary) =>
        Except.error "stream did not contain valid UTF-8"
    | some (Entry.dir _) => Except.error "Is a directory (os error 21)"
    | none => Except.error "No such file or directory (os error 2)")

/-- `std::fs::write` as a state-passing primitive. -/
def fsWrite (fs : Entry) (p : FsPath) (d : FileData) : Entry × Except String Unit :=
  match writeE fs p d with
  | Except.ok fs' => (fs', Except.ok ())
  | Except.error msg => (fs, Except.error msg)

/-- `std::fs::create_dir_all` as a state-passing primitive. -/
def fsCreateDirAll (fs : Entry) (p : FsPath) : Entry × Except String Unit :=
  match createDirAllE fs p with
  | Except.ok fs' => (fs', Except.ok ())
  | Except.error msg => (fs, Except.error msg)

/-- `std::fs::remove_file` as a state-passing primitive. -/
def fsRemoveFile (fs : Entry) (p : FsPath) : Entry × Except String Unit :=
  match removeFileE fs p with
  | Except.ok fs' => (fs', Except.ok ())
  | Except.error msg => (fs, Except.error msg)

/-- `std::fs::read_dir`: the child list of the directory at the path;
errors on a missing path and on a regular file.  In the model,
enumeration yields every child and no child errors.  Reading does not
change the filesystem. -/
def fsReadDir (fs : Entry) (p : FsPath) : Entry × Except String (List (String × Entry)) :=
  (fs,
    match fs.lookup p with
    | some (Entry.dir cs) => Except.ok cs
    | some (Entry.file _) => Except.error "Not a directory (os error 20)"
    | none => Except.error "No such file or directory (os error 2)")

/-- `std::path::Path::exists`: whether any entry is at the path.
Testing does not change the filesystem. -/
def fsExists (fs : Entry) (p : FsPath) : Entry × Bool :=
  (fs, (fs.lookup p).isSome)

/-- `read_file` from lib.rs: `fs::read_to_string(&path)`. -/
def read_file (fs : Entry) (p : FsPath) : Entry × Except String String :=
  fsReadToString fs p

/-- `write_file` from lib.rs: if the path has a parent,
`fs::create_dir_all(parent)?`, then `fs::write(&path, content)`. -/
def write_file (fs : Entry) (p : FsPath) (content : String) : Entry × Except String Unit :=
  match parentPath p with
  | some par =>
    match fsCreateDirAll fs par with
    | (fs₁, Except.ok _) => fsWrite fs₁ p (FileData.text content)
    | (fs₁, Except.error msg) => (fs₁, Except.error msg)
  | none => fsWrite fs p (FileData.text content)

/-- `delete_file` from lib.rs: if `p.exists()` then
`fs::remove_file(&p)` else `Ok(())`. -/
def delete_file (fs : Entry) (p : FsPath) : Entry × Except String Unit :=
  match fsExists fs p with
  | (fs₁, true) => fsRemoveFile fs₁ p
  | (fs₁, false) => (fs₁, Except.ok ())

/-- `list_dir` from lib.rs: if `!p.exists()` return `Ok(vec![])`, else
`fs::read_dir(&p)?` and collect each entry's file name. -/
def list_dir (fs : Entry) (p : FsPath) : Entry × Except String (List String) :=
  match fsExists fs p with
  | (fs₁, false) => (fs₁, Except.ok [])
  | (fs₁, true) =>
    match fsReadDir fs₁ p with
    | (fs₂, Except.ok entries) => (fs₂, Except.ok (entries.map Prod.fst))
    | (fs₂, Except.error msg) => (fs₂, Except.error msg)

/-- `ensure_dir` from lib.rs: `fs::create_dir_all(&path)`. -/
def ensure_dir (fs : Entry) (p : FsPath) : Entry × Except String Unit :=
  fsCreateDirAll fs p

/-- `file_exists` from lib.rs: `PathBuf::from(&path).exists()`. -/
def file_exists (fs : Entry) (p : FsPath) : Entry × Bool :=
  fsExists fs p

/-- Every point along the path, the endpoint included, exists and is a
directory. -/
def chainDirs : Entry → FsPath → Bool
  | Entry.file _, _ => false
  | Entry.dir _, [] => true
  | Entry.dir cs, n :: rest =>
    match getChild cs n with
    | none => false
    | some e => chainDirs e rest

/-- `create_dir_all` can succeed from here: walking the path meets no
regular file (a missing component means the rest will be created). -/
def dirsOk : Entry → FsPath → Bool
  | Entry.file _, _ => false
  | Entry.dir _, [] => true
  | Entry.dir cs, n :: rest =>
    match getChild cs n with
    | none => true
    | some e => dirsOk e rest

/-- No directory sits at the path (nothing there, or a regular file). -/
def notDirAt (fs : Entry) (p : FsPath) : Prop :=
  ∀ cs, fs.lookup p ≠ some (Entry.dir cs)

theorem getChild_setChild_self (cs : List (String × Entry)) (n : String) (e : Entry) :
    getChild (setChild cs n e) n = some e := by
  induction cs with
  | nil => simp [setChild, getChild]
  | cons c cs ih =>
    obtain ⟨m, e₀⟩ := c
    by_cases hm : m = n
    · subst hm; simp [setChild, getChild]
    · simp [setChild, getChild, hm, ih]

theorem setChild_setChild (cs : List (String × Entry)) (n : String) (e e₂ : Entry) :
    setChild (setChild cs n e) n e₂ = setChild cs n e₂ := by
  induction cs with
  | nil => simp [setChild]
  | cons c cs ih =>
    obtain ⟨m, e₀⟩ := c
    by_cases hm : m = n
    · subst hm; simp [setChild]
    · simp [setChild, hm, ih]

theorem setChild_self (cs : List (String × Entry)) (n : String) (e : Entry)
    (h : getChild cs n = some e) : setChild cs n e = cs := by
  induction cs with
  | nil => simp [getChild] at h
  | cons c cs ih =>
    obtain ⟨m, e₀⟩ := c
    by_cases hm : m = n
    · subst hm
      simp [getChild] at h
      simp [setChild, h]
    · simp [getChild, hm] at h
      simp [setChild, hm, ih h]

theorem getChild_delChild (cs : List (String × Entry)) (n : String) :
    getChild (delChild cs n) n = none := by
  induction cs with
  | nil => simp [delChild, getChild]
  | cons c cs ih =>
    obtain ⟨m, e₀⟩ := c
    by_cases hm : m = n
    · subst hm; simp [delChild, ih]
    · simp [delChild, getChild, hm, ih]

theorem writeE_lookup (p : FsPath) :
    ∀ (e e' : Entry) (d : FileData), writeE e p d = Except.ok e' →
      e'.lookup p = some (Entry.file d) := by
  induction p with
  | nil => intro e e' d h; simp [writeE] at h
  | cons n rest ih =>
    intro e e' d h
    cases e with
    | file _ => simp [writeE] at h
    | dir cs =>
      cases rest with
      | nil =>
        cases hg : getChild cs n with
        | none =>
          simp [writeE, hg] at h
          subst h
          simp [Entry.lookup, getChild_setChild_self]
        | some e₁ =>
          cases e₁ with
          | file _ =>
            simp [writeE, hg] at h
            subst h
            simp [Entry.lookup, getChild_setChild_self]
          | dir _ => simp [writeE, hg] at h
      | cons m rest' =>
        cases hg : getChild cs n with
        | none => simp [writeE, hg] at h
        | some e₁ =>
          cases hw : writeE e₁ (m :: rest') d with
          | error msg => simp [writeE, hg, hw] at h
          | ok e₂ =>
            simp [writeE, hg, hw] at h
            subst h
            simp [Entry.lookup, getChild_setChild_self]
            exact ih e₁ e₂ d hw

theorem writeE_self_idem (p : FsPath) :
    ∀ (e e' : Entry) (d : FileData), writeE e p d = Except.ok e' →
      writeE e' p d = Except.ok e' := by
  induction p with
  | nil => intro e e' d h; simp [writeE] at h
  | cons n rest ih =>
    intro e e' d h
    cases e with
    | file _ => simp [writeE] at h
    | dir cs =>
      cases rest with
      | nil =>
        cases hg : getChild cs n with
        | none =>
          simp [writeE, hg] at h
          subst h
          simp [writeE, getChild_setChild_self, setChild_setChild]
        | some e₁ =>
          cases e₁ with
          | file _ =>
            simp [writeE, hg] at h
            subst h
            simp [writeE, getChild_setChild_self, setChild_setChild]
          | dir _ => simp [writeE, hg] at h
      | cons m rest' =>
        cases hg : getChild cs n with
        | none => simp [writeE, hg] at h
        | some e₁ =>
          cases hw : writeE e₁ (m :: rest') d with
          | error msg => simp [writeE, hg, hw] at h
          | ok e₂ =>
            simp [writeE, hg, hw] at h
            subst h
            simp [writeE, getChild_setChild_self, ih e₁ e₂ d hw, setChild_setChild]

theorem writeE_chainDirs (p : FsPath) :
    ∀ (e e' : Entry) (d : FileData), writeE e p d = Except.ok e' →
      chainDirs e' p.dropLast = true := by
  induction p with
  | nil => intro e e' d h; simp [writeE] at h
  | cons n rest ih =>
    intro e e' d h
    cases e with
    | file _ => simp [writeE] at h
    | dir cs =>
      cases rest with
      | nil =>
        cases hg : getChild cs n with
        | none =>
          simp [writeE, hg] at h
          subst h
          simp [chainDirs]
        | some e₁ =>
          cases e₁ with
          | file _ =>
            simp [writeE, hg] at h
            subst h
            simp [chainDirs]
          | dir _ => simp [writeE, hg] at h
      | cons m rest' =>
        cases hg : getChild cs n with
        | none => simp [writeE, hg] at h
        | some e₁ =>
          cases hw : writeE e₁ (m :: rest') d with
          | error msg => simp [writeE, hg, hw] at h
          | ok e₂ =>
            simp [writeE, hg, hw] at h
            subst h
            simp [List.dropLast, chainDirs, getChild_setChild_self]
            exact ih e₁ e₂ d hw

theorem createDirAllE_chainDirs (q : FsPath) :
    ∀ (e e' : Entry), createDirAllE e q = Except.ok e' → chainDirs e' q = true := by
  induction q with
  | nil =>
    intro e e' h
    cases e with
    | file _ => simp [createDirAllE] at h
    | dir cs => simp [createDirAllE] at h; subst h; simp [chainDirs]
  | cons n rest ih =>
    intro e e' h
    cases e with
    | file _ => simp [createDirAllE] at h
    | dir cs =>
      cases hg : getChild cs n with
      | none =>
        cases hc : createDirAllE (Entry.dir []) rest with
        | error msg => simp [createDirAllE, hg, hc] at h
        | ok e₂ =>
          simp [createDirAllE, hg, hc] at h
          subst h
          simp [chainDirs, getChild_setChild_self]
          exact ih _ e₂ hc
      | some e₁ =>
        cases hc : createDirAllE e₁ rest with
        | error msg => simp [createDirAllE, hg, hc] at h
        | ok e₂ =>
          simp [createDirAllE, hg, hc] at h
          subst h
          simp [chainDirs, getChild_setChild_self]
          exact ih e₁ e₂ hc

theorem createDirAllE_idem (q : FsPath) :
    ∀ (e e' : Entry), createDirAllE e q = Except.ok e' →
      createDirAllE e' q = Except.ok e' := by
  induction q with
  | nil =>
    intro e e' h
    cases e with
    | file _ => simp [createDirAllE] at h
    | dir cs => simp [createDirAllE] at h; subst h; simp [createDirAllE]
  | cons n rest ih =>
    intro e e' h
    cases e with
    | file _ => simp [createDirAllE] at h
    | dir cs =>
      cases hg : getChild cs n with
      | none =>
        cases hc : createDirAllE (Entry.dir []) rest with
        | error msg => simp [createDirAllE, hg, hc] at h
        | ok e₂ =>
          simp [createDirAllE, hg, hc] at h
          subst h
          simp [createDirAllE, getChild_setChild_self, ih _ e₂ hc, setChild_setChild]
      | some e₁ =>
        cases hc : createDirAllE e₁ rest with
        | error msg => simp [createDirAllE, hg, hc] at h
        | ok e₂ =>
          simp [createDirAllE, hg, hc] at h
          subst h
          simp [createDirAllE, getChild_setChild_self, ih e₁ e₂ hc, setChild_setChild]

theorem createDirAllE_of_chainDirs (q : FsPath) :
    ∀ (e : Entry), chainDirs e q = true → createDirAllE e q = Except.ok e := by
  induction q with
  | nil =>
    intro e h
    cases e with
    | file _ => simp [chainDirs] at h
    | dir cs => simp [createDirAllE]
  | cons n rest ih =>
    intro e h
    cases e with
    | file _ => simp [chainDirs] at h
    | dir cs =>
      cases hg : getChild cs n with
      | none => simp [chainDirs, hg] at h
      | some e₁ =>
        simp [chainDirs, hg] at h
        simp [createDirAllE, hg, ih e₁ h, setChild_self cs n e₁ hg]

theorem createDirAllE_ok_of_dirsOk (q : FsPath) :
    ∀ (e : Entry), dirsOk e q = true →
      ∃ e', createDirAllE e q = Except.ok e' := by
  induction q with
  | nil =>
    intro e h
    cases e with
    | file _ => simp [dirsOk] at h
    | dir cs => exact ⟨Entry.dir cs, by simp [createDirAllE]⟩
  | cons n rest ih =>
    intro e h
    cases e with
    | file _ => simp [dirsOk] at h
    | dir cs =>
      cases hg : getChild cs n with
      | none =>
        have hsub : dirsOk (Entry.dir []) rest = true := by
          cases rest with
          | nil => simp [dirsOk]
          | cons m rest' => simp [dirsOk, getChild]
        obtain ⟨e₂, hc⟩ := ih (Entry.dir []) hsub
        exact ⟨Entry.dir (setChild cs n e₂), by simp [createDirAllE, hg, hc]⟩
      | some e₁ =>
        simp [dirsOk, hg] at h
        obtain ⟨e₂, hc⟩ := ih e₁ h
        exact ⟨Entry.dir (setChild cs n e₂), by simp [createDirAllE, hg, hc]⟩

theorem createDirAllE_frame (q : FsPath) :
    ∀ (e e' : Entry) (r : FsPath), createDirAllE e q = Except.ok e' → r ≠ [] →
      e'.lookup (q ++ r) = e.lookup (q ++ r) := by
  induction q with
  | nil =>
    intro e e' r h _
    cases e with
    | file _ => simp [createDirAllE] at h
    | dir cs => simp [createDirAllE] at h; subst h; rfl
  | cons n rest ih =>
    intro e e' r h hr
    cases e with
    | file _ => simp [createDirAllE] at h
    | dir cs =>
      cases hg : getChild cs n with
      | none =>
        cases hc : createDirAllE (Entry.dir []) rest with
        | error msg => simp [createDirAllE, hg, hc] at h
        | ok e₂ =>
          simp [createDirAllE, hg, hc] at h
          subst h
          have hsub := ih (Entry.dir []) e₂ r hc hr
          simp [Entry.lookup, getChild_setChild_self, hg, hsub]
          cases r with
          | nil => exact absurd rfl hr
          | cons x xs =>
            cases rest with
            | nil => simp [Entry.lookup, getChild]
            | cons y ys => simp [Entry.lookup, getChild]
      | some e₁ =>
        cases hc : createDirAllE e₁ rest with
        | error msg => simp [createDirAllE, hg, hc] at h
        | ok e₂ =>
          simp [createDirAllE, hg, hc] at h
          subst h
          simp [Entry.lookup, getChild_setChild_self, hg, ih e₁ e₂ r hc hr]

theorem removeFileE_of_file (rest : FsPath) :
    ∀ (n : String) (e : Entry) (d : FileData),
      e.lookup (n :: rest) = some (Entry.file d) →
      ∃ e', removeFileE e (n :: rest) = Except.ok e' ∧
        e'.lookup (n :: rest) = none := by
  induction rest with
  | nil =>
    intro n e d h
    cases e with
    | file _ => simp [Entry.lookup] at h
    | dir cs =>
      cases hg : getChild cs n with
      | none => simp [Entry.lookup, hg] at h
      | some e₁ =>
        simp [Entry.lookup, hg] at h
        subst h
        refine ⟨Entry.dir (delChild cs n), ?_, ?_⟩
        · simp [removeFileE, hg]
        · simp [Entry.lookup, getChild_delChild]
  | cons m rest' ih =>
    intro n e d h
    cases e with
    | file _ => simp [Entry.lookup] at h
    | dir cs =>
      cases hg : getChild cs n with
      | none => simp [Entry.lookup, hg] at h
      | some e₁ =>
        simp [Entry.lookup, hg] at h
        obtain ⟨e₂, hr, hl⟩ := ih m e₁ d h
        refine ⟨Entry.dir (setChild cs n e₂), ?_, ?_⟩
        · simp [removeFileE, hg, hr]
        · simp [Entry.lookup, getChild_setChild_self, hl]

theorem writeE_ok_of_chainDirs (q : FsPath) :
    ∀ (e : Entry) (n : String) (d : FileData), chainDirs e q = true →
      (∀ cs, e.lookup (q ++ [n]) ≠ some (Entry.dir cs)) →
      ∃ e', writeE e (q ++ [n]) d = Except.ok e' := by
  induction q with
  | nil =>
    intro e n d h hnd
    cases e with
    | file _ => simp [chainDirs] at h
    | dir cs =>
      cases hg : getChild cs n with
      | none => exact ⟨Entry.dir (setChild cs n (Entry.file d)), by simp [writeE, hg]⟩
      | some e₁ =>
        cases e₁ with
        | file _ => exact ⟨Entry.dir (setChild cs n (Entry.file d)), by simp [writeE, hg]⟩
        | dir cs₁ =>
          exact absurd (by simp [Entry.lookup, hg]) (hnd cs₁)
  | cons m q' ih =>
    intro e n d h hnd
    cases e with
    | file _ => simp [chainDirs] at h
    | dir cs =>
      cases hg : getChild cs m with
      | none => simp [chainDirs, hg] at h
      | some e₁ =>
        simp [chainDirs, hg] at h
        have hnd₁ : ∀ cs₂, e₁.lookup (q' ++ [n]) ≠ some (Entry.dir cs₂) := by
          intro cs₂ hc
          exact hnd cs₂ (by simp [Entry.lookup, hg, hc])
        obtain ⟨e₂, hw⟩ := ih e₁ n d h hnd₁
        cases hq : q' ++ [n] with
        | nil => simp at hq
        | cons a l =>
          rw [hq] at hw
          exact ⟨Entry.dir (setChild cs m e₂), by simp [hq, writeE, hg, hw]⟩

theorem write_file_ok_elim (fs fs' : Entry) (p : FsPath) (c : String)
    (h : write_file fs p c = (fs', Except.ok ())) :
    p ≠ [] ∧ ∃ fs₁, createDirAllE fs p.dropLast = Except.ok fs₁ ∧
      writeE fs₁ p (FileData.text c) = Except.ok fs' := by
  cases p with
  | nil => simp [write_file, parentPath, fsWrite, writeE] at h
  | cons n rest =>
    refine ⟨by simp, ?_⟩
    simp only [write_file, parentPath] at h
    cases hc : createDirAllE fs ((n :: rest).dropLast) with
    | error msg => simp [fsCreateDirAll, hc] at h
    | ok fs₁ =>
      simp only [fsCreateDirAll, hc] at h
      cases hw : writeE fs₁ (n :: rest) (FileData.text c) with
      | error msg => simp [fsWrite, hw] at h
      | ok fs₂ =>
        simp [fsWrite, hw] at h
        subst h
        exact ⟨fs₁, rfl, hw⟩

/-- C1: for every path p and text c, if write_file(p, c) succeeds, then
a subsequent read_file(p) succeeds and returns exactly c (write/read
round-trip). -/
theorem write_read_roundtrip (fs fs' : Entry) (p : FsPath) (c : String)
    (h : write_file fs p c = (fs', Except.ok ())) :
    read_file fs' p = (fs', Except.ok c) := by
  obtain ⟨hne, fs₁, hc, hw⟩ := write_file_ok_elim fs fs' p c h
  have hl := writeE_lookup p fs₁ fs' (FileData.text c) hw
  simp [read_file, fsReadToString, hl]

theorem write_read_roundtrip_witness :
    read_file (Entry.dir [("a", Entry.file (FileData.text "hi"))]) ["a"] =
      (Entry.dir [("a", Entry.file (FileData.text "hi"))], Except.ok "hi") :=
  write_read_roundtrip (Entry.dir []) _ ["a"] "hi" (by rfl)

/-- C2: for a non-root path p whose walk meets no regular file before
its final component and whose target is not an existing directory,
write_file(p, c) succeeds — in particular when the intermediate
directories of p do not preexist — creating the missing parent
directory chain and leaving the file at p with exactly the contents c,
replacing any prior contents. -/
theorem write_file_creates_parents (fs : Entry) (p : FsPath) (c : String)
    (hne : p ≠ []) (hok : dirsOk fs p.dropLast = true) (hnd : notDirAt fs p) :
    ∃ fs', write_file fs p c = (fs', Except.ok ()) ∧
      fs'.lookup p = some (Entry.file (FileData.text c)) ∧
      chainDirs fs' p.dropLast = true := by
  obtain ⟨fs₁, hc⟩ := createDirAllE_ok_of_dirsOk p.dropLast fs hok
  have hch : chainDirs fs₁ p.dropLast = true := createDirAllE_chainDirs p.dropLast fs fs₁ hc
  have hsplit : p.dropLast ++ [p.getLast hne] = p := List.dropLast_append_getLast hne
  have hnd₁ : ∀ cs, fs₁.lookup (p.dropLast ++ [p.getLast hne]) ≠ some (Entry.dir cs) := by
    intro cs hcon
    rw [createDirAllE_frame p.dropLast fs fs₁ [p.getLast hne] hc (by simp)] at hcon
    rw [hsplit] at hcon
    exact hnd cs hcon
  obtain ⟨fs₂, hw⟩ :=
    writeE_ok_of_chainDirs p.dropLast fs₁ (p.getLast hne) (FileData.text c) hch hnd₁
  rw [hsplit] at hw
  refine ⟨fs₂, ?_, writeE_lookup p fs₁ fs₂ (FileData.text c) hw,
    writeE_chainDirs p fs₁ fs₂ (FileData.text c) hw⟩
  cases hp : p with
  | nil => exact absurd hp hne
  | cons n rest =>
    rw [hp] at hc hw
    simp [write_file, parentPath, fsCreateDirAll, hc, fsWrite, hw]

theorem write_file_creates_parents_witness :
    ∃ fs', write_file (Entry.dir []) ["a", "b", "c"] "x" = (fs', Except.ok ()) ∧
      fs'.lookup ["a", "b", "c"] = some (Entry.file (FileData.text "x")) ∧
      chainDirs fs' (["a", "b", "c"] : FsPath).dropLast = true :=
  write_file_creates_parents (Entry.dir []) ["a", "b", "c"] "x" (by simp) (by rfl)
    (by intro cs hcon; simp [Entry.lookup, getChild] at hcon)

/-- C3: delete_file on a path with no filesystem entry succeeds
silently and changes nothing; and after a successful write_file(p, c)
followed by delete_file(p), delete_file succeeds and file_exists(p)
returns false. -/
theorem delete_file_missing_and_after_write :
    (∀ (fs : Entry) (p : FsPath), fs.lookup p = none →
        delete_file fs p = (fs, Except.ok ())) ∧
    (∀ (fs fs' : Entry) (p : FsPath) (c : String),
        write_file fs p c = (fs', Except.ok ()) →
        ∃ fs₂, delete_file fs' p = (fs₂, Except.ok ()) ∧
          (file_exists fs₂ p).2 = false) := by
  constructor
  · intro fs p h
    simp [delete_file, fsExists, h]
  · intro fs fs' p c h
    obtain ⟨hne, fs₁, hc, hw⟩ := write_file_ok_elim fs fs' p c h
    have hl := writeE_lookup p fs₁ fs' (FileData.text c) hw
    cases p with
    | nil => exact absurd rfl hne
    | cons n rest =>
      obtain ⟨fs₂, hr, hnone⟩ := removeFileE_of_file rest n fs' (FileData.text c) hl
      refine ⟨fs₂, ?_, ?_⟩
      · simp [delete_file, fsExists, hl, fsRemoveFile, hr]
      · simp [file_exists, fsExists, hnone]

theorem delete_file_missing_and_after_write_witness :
    delete_file (Entry.dir []) ["z"] = (Entry.dir [], Except.ok ()) ∧
      ∃ fs₂, delete_file (Entry.dir [("a", Entry.file (FileData.text "v"))]) ["a"] =
          (fs₂, Except.ok ()) ∧
        (file_exists fs₂ ["a"]).2 = false :=
  ⟨delete_file_missing_and_after_write.1 (Entry.dir []) ["z"] (by rfl),
    delete_file_missing_and_after_write.2 (Entry.dir []) _ ["a"] "v" (by rfl)⟩

/-- C4: list_dir on a path with no filesystem entry returns the empty
sequence, not an error, and changes nothing. -/
theorem list_dir_missing (fs : Entry) (p : FsPath) (h : fs.lookup p = none) :
    list_dir fs p = (fs, Except.ok []) := by
  simp [list_dir, fsExists, h]

theorem list_dir_missing_witness :
    list_dir (Entry.dir []) ["nope"] = (Entry.dir [], Except.ok []) :=
  list_dir_missing (Entry.dir []) ["nope"] (by rfl)

/-- C5: ensure_dir succeeds when the directory (with its ancestors)
already exists, and it is idempotent: after a successful ensure_dir
the path and all its ancestors are directories, and running ensure_dir
again succeeds and leaves the filesystem unchanged. -/
theorem ensure_dir_idempotent :
    (∀ (fs : Entry) (p : FsPath), chainDirs fs p = true →
        ensure_dir fs p = (fs, Except.ok ())) ∧
    (∀ (fs fs' : Entry) (p : FsPath), ensure_dir fs p = (fs', Except.ok ()) →
        ensure_dir fs' p = (fs', Except.ok ()) ∧ chainDirs fs' p = true) := by
  constructor
  · intro fs p h
    simp [ensure_dir, fsCreateDirAll, createDirAllE_of_chainDirs p fs h]
  · intro fs fs' p h
    have hc : createDirAllE fs p = Except.ok fs' := by
      cases hc : createDirAllE fs p with
      | error msg => simp [ensure_dir, fsCreateDirAll, hc] at h
      | ok fs₂ =>
        simp [ensure_dir, fsCreateDirAll, hc] at h
        rw [← h]
    exact ⟨by simp [ensure_dir, fsCreateDirAll, createDirAllE_idem p fs fs' hc],
      createDirAllE_chainDirs p fs fs' hc⟩

theorem ensure_dir_idempotent_witness :
    ensure_dir (Entry.dir [("d", Entry.dir [])]) ["d"] =
        (Entry.dir [("d", Entry.dir [])], Except.ok ()) ∧
      (ensure_dir (Entry.dir [("x", Entry.dir [("y", Entry.dir [])])]) ["x", "y"] =
          (Entry.dir [("x", Entry.dir [("y", Entry.dir [])])], Except.ok ()) ∧
        chainDirs (Entry.dir [("x", Entry.dir [("y", Entry.dir [])])]) ["x", "y"] = true) :=
  ⟨ensure_dir_idempotent.1 (Entry.dir [("d", Entry.dir [])]) ["d"] (by rfl),
    ensure_dir_idempotent.2 (Entry.dir []) _ ["x", "y"] (by rfl)⟩

/-- C6: read_file returns an error exactly when no entry is at the
path, the entry is not a readable regular file (it is a directory), or
its contents are not valid UTF-8; in particular a missing path gives
an error, never a success value. -/
theorem read_file_error_iff (fs : Entry) (p : FsPath) :
    (∃ msg, (read_file fs p).2 = Except.error msg) ↔
      (fs.lookup p = none ∨ (∃ cs, fs.lookup p = some (Entry.dir cs)) ∨
        fs.lookup p = some (Entry.file FileData.binary)) := by
  cases hl : fs.lookup p with
  | none => simp [read_file, fsReadToString, hl]
  | some e =>
    cases e with
    | file d =>
      cases d with
      | text s => simp [read_file, fsReadToString, hl]
      | binary => simp [read_file, fsReadToString, hl]
    | dir cs => simp [read_file, fsReadToString, hl]

/-- C7: list_dir on an existing directory returns the final-component
name of every child entry — files and subdirectories alike, with no
"." or ".." entries, every child enumerated — and changes nothing. -/
theorem list_dir_existing_names (fs : Entry) (p : FsPath) (cs : List (String × Entry))
    (h : fs.lookup p = some (Entry.dir cs)) :
    list_dir fs p = (fs, Except.ok (cs.map Prod.fst)) := by
  simp [list_dir, fsExists, h, fsReadDir]

theorem list_dir_existing_names_witness :
    list_dir (Entry.dir [("d", Entry.dir [("f", Entry.file (FileData.text "1")),
        ("s", Entry.dir [])])]) ["d"] =
      (Entry.dir [("d", Entry.dir [("f", Entry.file (FileData.text "1")),
        ("s", Entry.dir [])])], Except.ok ["f", "s"]) :=
  list_dir_existing_names _ ["d"] [("f", Entry.file (FileData.text "1")),
    ("s", Entry.dir [])] (by rfl)

/-- C8: write_file is idempotent in its final state: after a
successful write_file(p, c), running write_file(p, c) again succeeds
and returns the very same filesystem, which holds the file at p with
contents c. -/
theorem write_file_idempotent (fs fs' : Entry) (p : FsPath) (c : String)
    (h : write_file fs p c = (fs', Except.ok ())) :
    write_file fs' p c = (fs', Except.ok ()) ∧
      fs'.lookup p = some (Entry.file (FileData.text c)) := by
  obtain ⟨hne, fs₁, hc, hw⟩ := write_file_ok_elim fs fs' p c h
  have hl := writeE_lookup p fs₁ fs' (FileData.text c) hw
  have hch := writeE_chainDirs p fs₁ fs' (FileData.text c) hw
  have hcd := createDirAllE_of_chainDirs p.dropLast fs' hch
  have hw₂ := writeE_self_idem p fs₁ fs' (FileData.text c) hw
  cases p with
  | nil => exact absurd rfl hne
  | cons n rest =>
    refine ⟨?_, hl⟩
    simp [write_file, parentPath, fsCreateDirAll, hcd, fsWrite, hw₂]

theorem write_file_idempotent_witness :
    write_file (Entry.dir [("a", Entry.file (FileData.text "hi"))]) ["a"] "hi" =
        (Entry.dir [("a", Entry.file (FileData.text "hi"))], Except.ok ()) ∧
      (Entry.dir [("a", Entry.file (FileData.text "hi"))]).lookup ["a"] =
        some (Entry.file (FileData.text "hi")) :=
  write_file_idempotent (Entry.dir []) _ ["a"] "hi" (by rfl)

/-- C9: read_file, list_dir and file_exists are read-only — whatever
the path and whether the result is a success or an error, the
filesystem they hand back is the one they were given. -/
theorem read_only_operations (fs : Entry) (p : FsPath) :
    (read_file fs p).1 = fs ∧ (list_dir fs p).1 = fs ∧ (file_exists fs p).1 = fs := by
  refine ⟨rfl, ?_, rfl⟩
  cases hl : fs.lookup p with
  | none => simp [list_dir, fsExists, fsReadDir, hl]
  | some e => cases e <;> simp [list_dir, fsExists, fsReadDir, hl]

/-- C10: list_dir on a path holding an existing entry that is not a
directory (a regular file) returns an error, neither an empty sequence
nor a listing. -/
theorem list_dir_on_file_errors (fs : Entry) (p : FsPath) (d : FileData)
    (h : fs.lookup p = some (Entry.file d)) :
    ∃ msg, (list_dir fs p).2 = Except.error msg := by
  refine ⟨"Not a directory (os error 20)", ?_⟩
  simp [list_dir, fsExists, h, fsReadDir]

theorem list_dir_on_file_errors_witness :
    ∃ msg, (list_dir (Entry.dir [("f", Entry.file (FileData.text "1"))]) ["f"]).2 =
      Except.error msg :=
  list_dir_on_file_errors (Entry.dir [("f", Entry.file (FileData.text "1"))]) ["f"]
    (FileData.text "1") (by rfl)
